import Mathlib

/-!
Shallow embedding of the `minimal_fastapi_app` service layer
(`users/service.py`, `projects/service.py`, the association operations and
the router-level error dispatch) together with proofs about the resource
lifecycle and relationship rules.

Modelling conventions:
* Wall-clock timestamps (`datetime.now()`) are modelled as `Nat` values; an
  operation that reads the clock takes an explicit `now` argument, and all
  `datetime.now()` calls inside one operation are modelled as that single
  instant.
* The database is a Lean structure holding the table rows in insertion
  order; SQL `OFFSET`/`LIMIT` become `List.drop`/`List.take`, an
  autoincrement primary key becomes an explicit `nextId` counter.
* `BusinessException(message, details)` is modelled structurally; a raised
  exception becomes `Except.error`, a normal return `Except.ok`.
* Pydantic `model_dump(exclude_unset=True)` tri-state fields are modelled
  with `Option`: an outer `none` means "field not supplied".  A field that
  is nullable in the store additionally carries an inner `Option`.
  (Supplying an explicit JSON `null` for a NOT NULL column would make the
  commit fail at the store; such non-successful updates are outside the
  successful-update statements proved below.)
-/

/-- One entry of the `details` list carried by `BusinessException`
(`core/exceptions.py`): a dict with keys `field`, `message`, `code`. -/
structure ErrorDetail where
  field : String
  message : String
  code : String
  deriving Repr, DecidableEq

/-- `BusinessException` from `core/exceptions.py`: a message plus a list of
field-level detail records (defaulting to `[]`). -/
structure BusinessException where
  message : String
  details : List ErrorDetail
  deriving Repr, DecidableEq

/-- Python substring test `pat in s` on explicit character lists
(structural recursion so that the kernel can evaluate it). -/
def charsHaveHead (l pat : List Char) : Bool :=
  match pat, l with
  | [], _ => true
  | _ :: _, [] => false
  | p :: ps, c :: cs => p == c && charsHaveHead cs ps

/-- `pat` occurs as a contiguous substring of `l`. -/
def charsContain (l pat : List Char) : Bool :=
  charsHaveHead l pat ||
    match l with
    | [] => false
    | _ :: cs => charsContain cs pat

/-- Python `pat in s` for strings. -/
def strContains (s pat : String) : Bool :=
  charsContain s.data pat.data

/-- Python `s.lower()` (ASCII-sufficient for the messages involved). -/
def strLower (s : String) : String :=
  ⟨s.data.map Char.toLower⟩

/-! ## User resource manager (`users/service.py`, `users/models.py`)

`UserORM` columns: `id` (autoincrement PK), `name` (NOT NULL),
`email` (unique, NOT NULL), `age` (nullable), `created_at` (NOT NULL).
There is no `updated_at` column on this model. -/

/-- A row of the `users` table (`UserORM`, `users/models.py` lines 73-81). -/
structure UserRec where
  id : Nat
  name : String
  email : String
  age : Option Nat
  created_at : Nat
  deriving Repr, DecidableEq

/-- `UserCreate` payload as consumed by `create_user`: `name`, `email`,
optional `age`. -/
structure UserCreate where
  name : String
  email : String
  age : Option Nat
  deriving Repr, DecidableEq

/-- `UserUpdate` payload after `model_dump(exclude_unset=True)`: each field
is present (`some`) or unset (`none`); `age` may be explicitly set to
null (`some none`). -/
structure UserUpdate where
  name : Option String
  email : Option String
  age : Option (Option Nat)
  deriving Repr, DecidableEq

/-- The `users` table plus the autoincrement sequence for `UserORM.id`. -/
structure UserStore where
  users : List UserRec
  nextId : Nat
  deriving Repr, DecidableEq

/-- The duplicate-email `BusinessException` raised by `create_user` and
`update_user`. -/
def emailConflictErr : BusinessException :=
  { message := "A user with this email already exists"
    details := [{ field := "email"
                  message := "Email address is already in use"
                  code := "email_exists" }] }

/-- The not-found `BusinessException` raised by `get_user_by_id`,
`update_user` and `delete_user`. -/
def userNotFoundErr (user_id : Nat) : BusinessException :=
  { message := "User with id \x27" ++ toString user_id ++ "\x27 not found"
    details := [] }

/-- `UserService.create_user`: pre-flight duplicate-email check, then the
row is persisted with `created_at = now` (and no `updated_at`, since
`UserORM` has no such column).  The `IntegrityError` fallback raises the
same `BusinessException`; in this sequential model the pre-flight check
already covers it. -/
def create_user (st : UserStore) (user_data : UserCreate) (now : Nat) :
    Except BusinessException (UserRec × UserStore) :=
  if st.users.any (fun u => u.email == user_data.email) then
    .error emailConflictErr
  else
    let user : UserRec :=
      { id := st.nextId
        name := user_data.name
        email := user_data.email
        age := user_data.age
        created_at := now }
    .ok (user, { users := st.users ++ [user], nextId := st.nextId + 1 })

/-- `UserService.get_user_by_id`. -/
def get_user_by_id (st : UserStore) (user_id : Nat) :
    Except BusinessException UserRec :=
  match st.users.find? (fun u => u.id == user_id) with
  | none => .error (userNotFoundErr user_id)
  | some user => .ok user

/-- `UserService.get_users`: total row count plus the
`OFFSET skip LIMIT limit` page in natural store (insertion) order. -/
def get_users (st : UserStore) (skip limit : Nat) :
    List UserRec × Nat :=
  (((st.users.drop skip).take limit), st.users.length)

/-- The `setattr` loop of `update_user`: apply exactly the supplied fields
of the payload to the fetched row.  No timestamp is touched. -/
def applyUserUpdate (u : UserRec) (p : UserUpdate) : UserRec :=
  let u := match p.name with
    | some v => { u with name := v }
    | none => u
  let u := match p.email with
    | some v => { u with email := v }
    | none => u
  match p.age with
  | some v => { u with age := v }
  | none => u

/-- Replace the first element satisfying `p` by its image under `f`
(the ORM mutates the single row fetched by primary key). -/
def updateBy (p : α → Bool) (f : α → α) : List α → List α
  | [] => []
  | a :: rest => if p a then f a :: rest else a :: updateBy p f rest

/-- Remove the first element satisfying `p`
(the ORM deletes the single row fetched by primary key). -/
def removeBy (p : α → Bool) : List α → List α
  | [] => []
  | a :: rest => if p a then rest else a :: removeBy p rest

/-- The duplicate-email check of `update_user`: a supplied `email` value
already held by a row other than the target. -/
def userEmailDup (st : UserStore) (user_id : Nat) (user_data : UserUpdate) :
    Bool :=
  match user_data.email with
  | some e => st.users.any (fun u => u.email == e && !(u.id == user_id))
  | none => false

/-- `UserService.update_user`: not-found check, duplicate-email check
restricted to a supplied `email` and to rows other than the target, then
the `setattr` loop over the supplied fields.  Faithfully to the source,
no timestamp is set. -/
def update_user (st : UserStore) (user_id : Nat) (user_data : UserUpdate) :
    Except BusinessException (UserRec × UserStore) :=
  match st.users.find? (fun u => u.id == user_id) with
  | none => .error (userNotFoundErr user_id)
  | some user =>
    if userEmailDup st user_id user_data then
      .error emailConflictErr
    else
      .ok (applyUserUpdate user user_data,
           { st with
             users := updateBy (fun u => u.id == user_id)
               (fun u => applyUserUpdate u user_data) st.users })

/-- `UserService.delete_user`: not-found check, then plain row deletion.
`UserORM` (in `users/models.py`) declares no relationship and the
association table foreign keys carry no `ON DELETE` action, so only the
`users` row itself is removed. -/
def delete_user (st : UserStore) (user_id : Nat) :
    Except BusinessException UserStore :=
  match st.users.find? (fun u => u.id == user_id) with
  | none => .error (userNotFoundErr user_id)
  | some _ => .ok { st with users := removeBy (fun u => u.id == user_id) st.users }

/-! ## Project resource manager (`projects/service.py`)

The service operates on rows carrying `id` (autoincrement PK),
`project_id` (client-supplied unique string), optional `description`,
`created_at` and `updated_at`, matching the `ProjectInDB` schema and the
constructor call in `create_project`. -/

/-- A row of the `projects` table as the project service reads and writes
it (`create_project` lines 69-74, `ProjectInDB` in `projects/schemas.py`). -/
structure ProjectRec where
  id : Nat
  project_id : String
  description : Option String
  created_at : Nat
  updated_at : Nat
  deriving Repr, DecidableEq

/-- `ProjectCreate` payload: required `project_id`, optional `description`. -/
structure ProjectCreate where
  project_id : String
  description : Option String
  deriving Repr, DecidableEq

/-- `ProjectUpdate` payload after `model_dump(exclude_unset=True)`:
`project_id` supplied or unset, `description` supplied (possibly as an
explicit null) or unset. -/
structure ProjectUpdate where
  project_id : Option String
  description : Option (Option String)
  deriving Repr, DecidableEq

/-- The `projects` table plus the autoincrement sequence for `ProjectORM.id`. -/
structure ProjectStore where
  projects : List ProjectRec
  nextId : Nat
  deriving Repr, DecidableEq

/-- The duplicate-`project_id` `BusinessException` raised by
`create_project` and `update_project`. -/
def projectConflictErr : BusinessException :=
  { message := "A project with this project_id already exists"
    details := [{ field := "project_id"
                  message := "Project ID is already in use"
                  code := "project_id_exists" }] }

/-- The not-found `BusinessException` raised by `get_project_by_id`,
`update_project` and `delete_project`. -/
def projectNotFoundErr (project_id : Nat) : BusinessException :=
  { message := "Project with id \x27" ++ toString project_id ++ "\x27 not found"
    details := [] }

/-- `ProjectService.create_project`: pre-flight duplicate-`project_id`
check, then the row is persisted with `created_at = datetime.now()` and
`updated_at = datetime.now()`, both modelled as the operation instant
`now`.  The `IntegrityError` fallback raises the same exception. -/
def create_project (st : ProjectStore) (project_data : ProjectCreate) (now : Nat) :
    Except BusinessException (ProjectRec × ProjectStore) :=
  if st.projects.any (fun p => p.project_id == project_data.project_id) then
    .error projectConflictErr
  else
    let project : ProjectRec :=
      { id := st.nextId
        project_id := project_data.project_id
        description := project_data.description
        created_at := now
        updated_at := now }
    .ok (project, { projects := st.projects ++ [project], nextId := st.nextId + 1 })

/-- `ProjectService.get_project_by_id`. -/
def get_project_by_id (st : ProjectStore) (project_id : Nat) :
    Except BusinessException ProjectRec :=
  match st.projects.find? (fun p => p.id == project_id) with
  | none => .error (projectNotFoundErr project_id)
  | some project => .ok project

/-- `ProjectService.get_projects`: total row count plus the
`OFFSET skip LIMIT limit` page in natural store (insertion) order. -/
def get_projects (st : ProjectStore) (skip limit : Nat) :
    List ProjectRec × Nat :=
  (((st.projects.drop skip).take limit), st.projects.length)

/-- The `setattr` loop of `update_project` followed by the unconditional
`updated_at` bump (`# always update timestamp`, line 217). -/
def applyProjectUpdate (pr : ProjectRec) (p : ProjectUpdate) (now : Nat) :
    ProjectRec :=
  let pr := match p.project_id with
    | some v => { pr with project_id := v }
    | none => pr
  let pr := match p.description with
    | some v => { pr with description := v }
    | none => pr
  { pr with updated_at := now }

/-- The duplicate check of `update_project`: a supplied `project_id` value
already held by a row other than the target. -/
def projectIdDup (st : ProjectStore) (project_id : Nat)
    (project_data : ProjectUpdate) : Bool :=
  match project_data.project_id with
  | some v => st.projects.any
      (fun p => p.project_id == v && !(p.id == project_id))
  | none => false

/-- `ProjectService.update_project`: not-found check, duplicate check
restricted to a supplied `project_id` and to rows other than the target,
then the `setattr` loop plus the unconditional `updated_at := now`. -/
def update_project (st : ProjectStore) (project_id : Nat)
    (project_data : ProjectUpdate) (now : Nat) :
    Except BusinessException (ProjectRec × ProjectStore) :=
  match st.projects.find? (fun p => p.id == project_id) with
  | none => .error (projectNotFoundErr project_id)
  | some project =>
    if projectIdDup st project_id project_data then
      .error projectConflictErr
    else
      .ok (applyProjectUpdate project project_data now,
           { st with
             projects := updateBy (fun p => p.id == project_id)
               (fun p => applyProjectUpdate p project_data now) st.projects })

/-- `ProjectService.delete_project` restricted to the `projects` table
itself: not-found check, then row deletion.  (The cascade on the
association table is treated in the relationship model below.) -/
def delete_project (st : ProjectStore) (project_id : Nat) :
    Except BusinessException ProjectStore :=
  match st.projects.find? (fun p => p.id == project_id) with
  | none => .error (projectNotFoundErr project_id)
  | some _ =>
    .ok { st with projects := removeBy (fun p => p.id == project_id) st.projects }

/-! ## User-project association (`projects/service.py` lines 271-346,
`projects/router.py`, `user_project_association` table)

`add_user_to_project` / `remove_user_from_project` look the user up by the
string key `user_id` and the project up by primary key; the association
table holds `(users.id, projects.id)` pairs with a composite primary key
and no `ON DELETE` action on its foreign keys. -/

/-- The user row as the association operations read it: the numeric
primary key plus the client-supplied string key `user_id`. -/
structure RelUser where
  id : Nat
  user_id : String
  deriving Repr, DecidableEq

/-- The project row as the association operations read it. -/
structure RelProject where
  id : Nat
  project_id : String
  deriving Repr, DecidableEq

/-- The store as the relationship operations see it: `users`, `projects`
and the `user_project_association` rows `(user_id, project_id)` keyed by
the numeric primary keys. -/
structure RelState where
  users : List RelUser
  projects : List RelProject
  assoc : List (Nat × Nat)
  deriving Repr, DecidableEq

/-- The `BusinessException` raised by the association operations when the
user or the project does not exist. -/
def endpointNotFoundErr : BusinessException :=
  { message := "User or Project not found", details := [] }

/-- The `BusinessException` raised by `remove_user_from_project` when both
endpoints exist but the pair is not associated. -/
def notInProjectErr : BusinessException :=
  { message := "User is not in project", details := [] }

/-- Look a user up by the string key (`select(UserORM).where(UserORM.user_id
== user_id)` + `scalar_one_or_none`). -/
def findRelUser (st : RelState) (user_id : String) : Option RelUser :=
  st.users.find? (fun u => u.user_id == user_id)

/-- Look a project up by primary key (`db.get(ProjectORM, project_id)`). -/
def findRelProject (st : RelState) (project_id : Nat) : Option RelProject :=
  st.projects.find? (fun p => p.id == project_id)

/-- `ProjectService.add_user_to_project`: not-found check on both
endpoints, then `if project not in user.projects: append` — an
already-present pair is silently left as is. -/
def add_user_to_project (st : RelState) (user_id : String) (project_id : Nat) :
    Except BusinessException RelState :=
  match findRelUser st user_id, findRelProject st project_id with
  | some user, some project =>
    if (user.id, project.id) ∈ st.assoc then
      .ok st
    else
      .ok { st with assoc := st.assoc ++ [(user.id, project.id)] }
  | _, _ => .error endpointNotFoundErr

/-- `ProjectService.remove_user_from_project`: not-found check on both
endpoints; a present pair is removed (the ORM deletes that association
row), an absent pair raises "User is not in project". -/
def remove_user_from_project (st : RelState) (user_id : String)
    (project_id : Nat) : Except BusinessException RelState :=
  match findRelUser st user_id, findRelProject st project_id with
  | some user, some project =>
    if (user.id, project.id) ∈ st.assoc then
      .ok { st with
            assoc := removeBy (fun q => decide (q = (user.id, project.id))) st.assoc }
    else
      .error notInProjectErr
  | _, _ => .error endpointNotFoundErr

/-- `GET /v1/projects/user/{user_id}/projects` (`list_projects_for_user`
in `projects/router.py`): 404 when the user is missing, else the projects
reached through `user.projects`, i.e. those whose pair with the user is in
the association table. -/
def list_projects_for_user (st : RelState) (user_id : String) :
    Except BusinessException (List RelProject) :=
  match findRelUser st user_id with
  | none =>
    .error { message := "User with user_id \x27" ++ user_id ++ "\x27 not found"
             details := [] }
  | some user =>
    .ok (st.projects.filter (fun p => decide ((user.id, p.id) ∈ st.assoc)))

/-- `UserService.delete_user` as it acts on the shared store: the user row
is deleted, and nothing else — the `UserORM` used by the user service maps
no relationship and the association table's foreign keys carry no
`ON DELETE` action, so association rows are left untouched. -/
def delete_user_rel (st : RelState) (id : Nat) :
    Except BusinessException RelState :=
  match st.users.find? (fun u => u.id == id) with
  | none => .error (userNotFoundErr id)
  | some _ => .ok { st with users := removeBy (fun u => u.id == id) st.users }

/-- `ProjectService.delete_project` as it acts on the shared store:
`ProjectORM` maps the `users` relationship through the association table,
so the ORM deletes the association rows referencing the deleted project
together with the project row. -/
def delete_project_rel (st : RelState) (id : Nat) :
    Except BusinessException RelState :=
  match st.projects.find? (fun p => p.id == id) with
  | none => .error (projectNotFoundErr id)
  | some _ =>
    .ok { st with
          projects := removeBy (fun p => p.id == id) st.projects
          assoc := st.assoc.filter (fun q => !(q.2 == id)) }

/-- Inserting a user row (the association-irrelevant part of user
creation): extends the `users` table only. -/
def insert_rel_user (st : RelState) (u : RelUser) : RelState :=
  { st with users := st.users ++ [u] }

/-- Inserting a project row: extends the `projects` table only. -/
def insert_rel_project (st : RelState) (p : RelProject) : RelState :=
  { st with projects := st.projects ++ [p] }

/-- Referential integrity of the association table: every stored pair
references an existing user and an existing project. -/
def noDangling (st : RelState) : Prop :=
  ∀ q ∈ st.assoc,
    (∃ u ∈ st.users, u.id = q.1) ∧ (∃ p ∈ st.projects, p.id = q.2)

instance (st : RelState) : Decidable (noDangling st) := by
  unfold noDangling
  infer_instance

/-! ## Router-level error dispatch (`projects/router.py`)

The routers translate a `BusinessException` into an HTTP status by
substring-matching on the lowercased message. -/

/-- The dispatch in `remove_user_from_project` (router lines 466-480):
404 when the lowercased message contains "not found" or "not in project",
400 otherwise. -/
def removeUserFromProjectStatus (e : BusinessException) : Nat :=
  if strContains (strLower e.message) "not found" ||
      strContains (strLower e.message) "not in project" then 404
  else 400

/-- The dispatch shared by the other project/association handlers
(e.g. router lines 407-420): 404 when the lowercased message contains
"not found", 400 otherwise. -/
def notFoundDispatchStatus (e : BusinessException) : Nat :=
  if strContains (strLower e.message) "not found" then 404 else 400

/-! ## Helper lemmas about the list primitives of the embedding -/

theorem mem_of_mem_removeBy {p : α → Bool} {l : List α} {a : α}
    (h : a ∈ removeBy p l) : a ∈ l := by
  induction l with
  | nil => simp [removeBy] at h
  | cons x xs ih =>
    unfold removeBy at h
    by_cases hx : p x
    · simp only [hx, if_pos] at h
      exact List.mem_cons_of_mem x h
    · simp only [hx] at h
      rcases List.mem_cons.mp h with h | h
      · exact h ▸ List.mem_cons_self x xs
      · exact List.mem_cons_of_mem x (ih h)

theorem mem_removeBy_of_pred_false {p : α → Bool} {l : List α} {a : α}
    (ha : a ∈ l) (hp : p a = false) : a ∈ removeBy p l := by
  induction l with
  | nil => cases ha
  | cons x xs ih =>
    unfold removeBy
    rcases List.mem_cons.mp ha with rfl | ha'
    · simp [hp]
    · by_cases hx : p x
      · simpa [hx] using ha'
      · simpa [hx] using Or.inr (ih ha')

theorem not_mem_removeBy_decide_of_nodup [DecidableEq α] {l : List α} {a : α}
    (h : l.Nodup) : a ∉ removeBy (fun q => decide (q = a)) l := by
  induction l with
  | nil => simp [removeBy]
  | cons x xs ih =>
    unfold removeBy
    rcases List.nodup_cons.mp h with ⟨hx, hxs⟩
    by_cases hxa : x = a
    · subst hxa
      simpa using hx
    · simp only [hxa, decide_eq_true_eq, if_neg]
      intro hmem
      rcases List.mem_cons.mp hmem with h' | h'
      · exact hxa h'.symm
      · exact ih hxs h'

theorem find?_updateBy (p : α → Bool) (f : α → α) {l : List α} {a : α}
    (hf : ∀ x, p x = true → p (f x) = true) (h : l.find? p = some a) :
    (updateBy p f l).find? p = some (f a) := by
  induction l with
  | nil => simp [List.find?] at h
  | cons x xs ih =>
    unfold updateBy
    by_cases hx : p x
    · rw [List.find?_cons_of_pos _ hx] at h
      cases h
      rw [if_pos hx]
      exact List.find?_cons_of_pos _ (hf _ hx)
    · rw [List.find?_cons_of_neg _ (by simpa using hx)] at h
      simp only [hx, if_neg, Bool.false_eq_true, not_false_iff]
      rw [List.find?_cons_of_neg _ (by simpa using hx)]
      exact ih h

/-- Number of copies of `q` among the association rows. -/
def pairCount (l : List (Nat × Nat)) (q : Nat × Nat) : Nat :=
  (l.filter (fun r => decide (r = q))).length

theorem pairCount_append (l1 l2 : List (Nat × Nat)) (q : Nat × Nat) :
    pairCount (l1 ++ l2) q = pairCount l1 q + pairCount l2 q := by
  simp [pairCount, List.filter_append]

theorem pairCount_singleton (q : Nat × Nat) : pairCount [q] q = 1 := by
  simp [pairCount]

theorem pairCount_eq_zero_of_not_mem {l : List (Nat × Nat)} {q : Nat × Nat}
    (h : q ∉ l) : pairCount l q = 0 := by
  induction l with
  | nil => rfl
  | cons x xs ih =>
    have hx : x ≠ q := fun hxq => h (hxq ▸ List.mem_cons_self x xs)
    have hxs : q ∉ xs := fun hq => h (List.mem_cons_of_mem x hq)
    simp [pairCount, List.filter_cons, hx]
    simpa [pairCount] using ih hxs

theorem pairCount_eq_one_of_nodup_mem {l : List (Nat × Nat)} {q : Nat × Nat}
    (hd : l.Nodup) (h : q ∈ l) : pairCount l q = 1 := by
  induction l with
  | nil => cases h
  | cons x xs ih =>
    rcases List.nodup_cons.mp hd with ⟨hx, hxs⟩
    rcases List.mem_cons.mp h with hq | h'
    · subst hq
      have h0 : pairCount xs q = 0 :=
        pairCount_eq_zero_of_not_mem hx
      simp [pairCount, List.filter_cons]
      simpa [pairCount] using h0
    · have hxq : x ≠ q := fun hxq => hx (hxq ▸ h')
      simp [pairCount, List.filter_cons, hxq]
      simpa [pairCount] using ih hxs h'

theorem applyUserUpdate_id (u : UserRec) (p : UserUpdate) :
    (applyUserUpdate u p).id = u.id := by
  rcases p with ⟨n, e, a⟩
  cases n <;> cases e <;> cases a <;> rfl

theorem applyUserUpdate_created_at (u : UserRec) (p : UserUpdate) :
    (applyUserUpdate u p).created_at = u.created_at := by
  rcases p with ⟨n, e, a⟩
  cases n <;> cases e <;> cases a <;> rfl

theorem applyProjectUpdate_id (pr : ProjectRec) (p : ProjectUpdate) (now : Nat) :
    (applyProjectUpdate pr p now).id = pr.id := by
  rcases p with ⟨n, d⟩
  cases n <;> cases d <;> rfl

theorem applyProjectUpdate_created_at (pr : ProjectRec) (p : ProjectUpdate)
    (now : Nat) : (applyProjectUpdate pr p now).created_at = pr.created_at := by
  rcases p with ⟨n, d⟩
  cases n <;> cases d <;> rfl

theorem applyProjectUpdate_updated_at (pr : ProjectRec) (p : ProjectUpdate)
    (now : Nat) : (applyProjectUpdate pr p now).updated_at = now := by
  rcases p with ⟨n, d⟩
  cases n <;> cases d <;> rfl

/-! ## Claim theorems -/

/-- C1: the claim says every successful update (user or project) sets
`updated_at` strictly above its previous value, even when the supplied
values equal the stored ones.  On the project side the service does bump
`updated_at` unconditionally (second conjunct), but on the user side the
claim fails against the code: `UserORM` has no `updated_at` column and
`update_user` touches no timestamp, so updating an existing user with a
payload repeating the stored value returns the stored record completely
unchanged (first conjunct) — nothing on the user record increases. -/
theorem update_user_leaves_record_unchanged_c1 :
    update_user ⟨[⟨1, "A", "a@x.com", none, 0⟩], 2⟩ 1 ⟨some "A", none, none⟩ =
      .ok (⟨1, "A", "a@x.com", none, 0⟩, ⟨[⟨1, "A", "a@x.com", none, 0⟩], 2⟩) ∧
    update_project ⟨[⟨1, "p1", none, 0, 0⟩], 2⟩ 1 ⟨some "p1", none⟩ 5 =
      .ok (⟨1, "p1", none, 0, 5⟩, ⟨[⟨1, "p1", none, 0, 5⟩], 2⟩) :=
  ⟨rfl, rfl⟩

/-- C7: the claim says `create` persists `created_at = updated_at = now`.
For projects this holds (second conjunct, both fields equal `5`).  For
users the claim fails against the code: the row persisted by `create_user`
carries only `created_at` — `UserORM` (`users/models.py` lines 73-81) has
no `updated_at` column at all, although the repository's own response
schema (`users/schemas.py`, class `User`) and its test
(`test_users.py` line 27) require `updated_at` to be present. -/
theorem create_timestamps_eval_c7 :
    create_user ⟨[], 1⟩ ⟨"A", "a@x.com", none⟩ 5 =
      .ok (⟨1, "A", "a@x.com", none, 5⟩, ⟨[⟨1, "A", "a@x.com", none, 5⟩], 2⟩) ∧
    create_project ⟨[], 1⟩ ⟨"p1", none⟩ 5 =
      .ok (⟨1, "p1", none, 5, 5⟩, ⟨[⟨1, "p1", none, 5, 5⟩], 2⟩) :=
  ⟨rfl, rfl⟩

/-- C4: once a create with a given unique key (user email / project
`project_id`) has succeeded, a second create payload with the same key
fails with the Conflict business failure whose details identify the
offending field (the pre-flight duplicate check raises it; the
`IntegrityError` fallback raises the identical exception). -/
theorem duplicate_create_conflict_c4 :
    (∀ (st st1 : UserStore) (p1 p2 : UserCreate) (r1 : UserRec) (n1 n2 : Nat),
        create_user st p1 n1 = .ok (r1, st1) → p2.email = p1.email →
        create_user st1 p2 n2 = .error emailConflictErr) ∧
    (∀ (st st1 : ProjectStore) (p1 p2 : ProjectCreate) (r1 : ProjectRec)
        (n1 n2 : Nat),
        create_project st p1 n1 = .ok (r1, st1) →
        p2.project_id = p1.project_id →
        create_project st1 p2 n2 = .error projectConflictErr) ∧
    emailConflictErr.details.map ErrorDetail.field = ["email"] ∧
    projectConflictErr.details.map ErrorDetail.field = ["project_id"] := by
  refine ⟨?_, ?_, rfl, rfl⟩
  · intro st st1 p1 p2 r1 n1 n2 h he
    unfold create_user at h ⊢
    split at h
    · cases h
    · cases h
      simp [List.any_append, he]
  · intro st st1 p1 p2 r1 n1 n2 h he
    unfold create_project at h ⊢
    split at h
    · cases h
    · cases h
      simp [List.any_append, he]

/-- Witness for C4 at a concrete input: after creating the user
`a@x.com` (resp. project `p1`), re-creating with the same key fails with
the Conflict error. -/
theorem duplicate_create_conflict_c4_witness :
    create_user ⟨[⟨1, "A", "a@x.com", none, 0⟩], 2⟩ ⟨"B", "a@x.com", some 3⟩ 1 =
      .error emailConflictErr ∧
    create_project ⟨[⟨1, "p1", none, 0, 0⟩], 2⟩ ⟨"p1", some "again"⟩ 1 =
      .error projectConflictErr :=
  ⟨duplicate_create_conflict_c4.1 ⟨[], 1⟩ ⟨[⟨1, "A", "a@x.com", none, 0⟩], 2⟩
      ⟨"A", "a@x.com", none⟩ ⟨"B", "a@x.com", some 3⟩
      ⟨1, "A", "a@x.com", none, 0⟩ 0 1 rfl rfl,
   duplicate_create_conflict_c4.2.1 ⟨[], 1⟩ ⟨[⟨1, "p1", none, 0, 0⟩], 2⟩
      ⟨"p1", none⟩ ⟨"p1", some "again"⟩ ⟨1, "p1", none, 0, 0⟩ 0 1 rfl rfl⟩

/-- C6: on a key at which no entity exists, `get`, `update` and `delete`
all fail with the NotFound business failure, for the user service and for
the project service alike. -/
theorem missing_key_not_found_c6 :
    (∀ (st : UserStore) (k : Nat) (p : UserUpdate),
        (∀ u ∈ st.users, u.id ≠ k) →
        get_user_by_id st k = .error (userNotFoundErr k) ∧
        update_user st k p = .error (userNotFoundErr k) ∧
        delete_user st k = .error (userNotFoundErr k)) ∧
    (∀ (st : ProjectStore) (k : Nat) (p : ProjectUpdate) (now : Nat),
        (∀ q ∈ st.projects, q.id ≠ k) →
        get_project_by_id st k = .error (projectNotFoundErr k) ∧
        update_project st k p now = .error (projectNotFoundErr k) ∧
        delete_project st k = .error (projectNotFoundErr k)) := by
  constructor
  · intro st k p habs
    have hfind : st.users.find? (fun u => u.id == k) = none := by
      rw [List.find?_eq_none]
      intro u hu
      simpa using habs u hu
    exact ⟨by simp [get_user_by_id, hfind], by simp [update_user, hfind],
           by simp [delete_user, hfind]⟩
  · intro st k p now habs
    have hfind : st.projects.find? (fun q => q.id == k) = none := by
      rw [List.find?_eq_none]
      intro q hq
      simpa using habs q hq
    exact ⟨by simp [get_project_by_id, hfind], by simp [update_project, hfind],
           by simp [delete_project, hfind]⟩

/-- Witness for C6 at a concrete input: key 7 in stores holding one entity
with id 1. -/
theorem missing_key_not_found_c6_witness :
    (get_user_by_id ⟨[⟨1, "A", "a@x.com", none, 0⟩], 2⟩ 7 =
        .error (userNotFoundErr 7) ∧
      update_user ⟨[⟨1, "A", "a@x.com", none, 0⟩], 2⟩ 7 ⟨some "B", none, none⟩ =
        .error (userNotFoundErr 7) ∧
      delete_user ⟨[⟨1, "A", "a@x.com", none, 0⟩], 2⟩ 7 =
        .error (userNotFoundErr 7)) ∧
    (get_project_by_id ⟨[⟨1, "p1", none, 0, 0⟩], 2⟩ 7 =
        .error (projectNotFoundErr 7) ∧
      update_project ⟨[⟨1, "p1", none, 0, 0⟩], 2⟩ 7 ⟨none, none⟩ 3 =
        .error (projectNotFoundErr 7) ∧
      delete_project ⟨[⟨1, "p1", none, 0, 0⟩], 2⟩ 7 =
        .error (projectNotFoundErr 7)) :=
  ⟨missing_key_not_found_c6.1 ⟨[⟨1, "A", "a@x.com", none, 0⟩], 2⟩ 7
      ⟨some "B", none, none⟩ (by decide),
   missing_key_not_found_c6.2 ⟨[⟨1, "p1", none, 0, 0⟩], 2⟩ 7 ⟨none, none⟩ 3
      (by decide)⟩

theorem applyUserUpdate_name_of_none {u : UserRec} {p : UserUpdate}
    (h : p.name = none) : (applyUserUpdate u p).name = u.name := by
  rcases p with ⟨n, e, a⟩
  simp only at h
  subst h
  cases e <;> cases a <;> rfl

theorem applyUserUpdate_name_of_some {u : UserRec} {p : UserUpdate} {v : String}
    (h : p.name = some v) : (applyUserUpdate u p).name = v := by
  rcases p with ⟨n, e, a⟩
  simp only at h
  subst h
  cases e <;> cases a <;> rfl

theorem applyUserUpdate_email_of_none {u : UserRec} {p : UserUpdate}
    (h : p.email = none) : (applyUserUpdate u p).email = u.email := by
  rcases p with ⟨n, e, a⟩
  simp only at h
  subst h
  cases n <;> cases a <;> rfl

theorem applyUserUpdate_email_of_some {u : UserRec} {p : UserUpdate} {v : String}
    (h : p.email = some v) : (applyUserUpdate u p).email = v := by
  rcases p with ⟨n, e, a⟩
  simp only at h
  subst h
  cases n <;> cases a <;> rfl

theorem applyUserUpdate_age_of_none {u : UserRec} {p : UserUpdate}
    (h : p.age = none) : (applyUserUpdate u p).age = u.age := by
  rcases p with ⟨n, e, a⟩
  simp only at h
  subst h
  cases n <;> cases e <;> rfl

theorem applyUserUpdate_age_of_some {u : UserRec} {p : UserUpdate}
    {v : Option Nat} (h : p.age = some v) : (applyUserUpdate u p).age = v := by
  rcases p with ⟨n, e, a⟩
  simp only at h
  subst h
  cases n <;> cases e <;> rfl

theorem applyProjectUpdate_pid_of_none {pr : ProjectRec} {p : ProjectUpdate}
    {now : Nat} (h : p.project_id = none) :
    (applyProjectUpdate pr p now).project_id = pr.project_id := by
  rcases p with ⟨n, d⟩
  simp only at h
  subst h
  cases d <;> rfl

theorem applyProjectUpdate_pid_of_some {pr : ProjectRec} {p : ProjectUpdate}
    {now : Nat} {v : String} (h : p.project_id = some v) :
    (applyProjectUpdate pr p now).project_id = v := by
  rcases p with ⟨n, d⟩
  simp only at h
  subst h
  cases d <;> rfl

theorem applyProjectUpdate_descr_of_none {pr : ProjectRec} {p : ProjectUpdate}
    {now : Nat} (h : p.description = none) :
    (applyProjectUpdate pr p now).description = pr.description := by
  rcases p with ⟨n, d⟩
  simp only at h
  subst h
  cases n <;> rfl

theorem applyProjectUpdate_descr_of_some {pr : ProjectRec} {p : ProjectUpdate}
    {now : Nat} {v : Option String} (h : p.description = some v) :
    (applyProjectUpdate pr p now).description = v := by
  rcases p with ⟨n, d⟩
  simp only at h
  subst h
  cases n <;> rfl

/-- C5: a successful partial (PATCH-style) update changes exactly the
payload fields that were explicitly supplied; every unsupplied payload
field, the primary key and `created_at` keep their previous value, as a
subsequent `get` observes.  (`updated_at` is governed separately: the user
model has none, the project side unconditionally sets it to the update
instant — last conjunct.) -/
theorem partial_update_frame_c5 :
    (∀ (st st1 : UserStore) (uid : Nat) (p : UserUpdate) (u r : UserRec),
        get_user_by_id st uid = .ok u →
        update_user st uid p = .ok (r, st1) →
        r.id = u.id ∧ r.created_at = u.created_at ∧
        (p.name = none → r.name = u.name) ∧
        (∀ v, p.name = some v → r.name = v) ∧
        (p.email = none → r.email = u.email) ∧
        (∀ v, p.email = some v → r.email = v) ∧
        (p.age = none → r.age = u.age) ∧
        (∀ v, p.age = some v → r.age = v) ∧
        get_user_by_id st1 uid = .ok r) ∧
    (∀ (st st1 : ProjectStore) (pid : Nat) (p : ProjectUpdate) (now : Nat)
        (q r : ProjectRec),
        get_project_by_id st pid = .ok q →
        update_project st pid p now = .ok (r, st1) →
        r.id = q.id ∧ r.created_at = q.created_at ∧
        (p.project_id = none → r.project_id = q.project_id) ∧
        (∀ v, p.project_id = some v → r.project_id = v) ∧
        (p.description = none → r.description = q.description) ∧
        (∀ v, p.description = some v → r.description = v) ∧
        get_project_by_id st1 pid = .ok r ∧
        r.updated_at = now) := by
  constructor
  · intro st st1 uid p u r hget hupd
    unfold get_user_by_id at hget
    rcases hfind : st.users.find? (fun w => w.id == uid) with _ | u'
    · rw [hfind] at hget
      cases hget
    · rw [hfind] at hget
      cases hget
      cases hdup : userEmailDup st uid p with
      | true =>
        simp [update_user, hfind, hdup] at hupd
      | false =>
        simp [update_user, hfind, hdup] at hupd
        obtain ⟨hr, hst⟩ := hupd
        subst hr
        subst hst
        refine ⟨applyUserUpdate_id u p, applyUserUpdate_created_at u p,
          fun h => applyUserUpdate_name_of_none h,
          fun v h => applyUserUpdate_name_of_some h,
          fun h => applyUserUpdate_email_of_none h,
          fun v h => applyUserUpdate_email_of_some h,
          fun h => applyUserUpdate_age_of_none h,
          fun v h => applyUserUpdate_age_of_some h, ?_⟩
        have hres := find?_updateBy _ (fun w => applyUserUpdate w p)
          (fun w hw => by simpa [applyUserUpdate_id] using hw) hfind
        simp [get_user_by_id, hres]
  · intro st st1 pid p now q r hget hupd
    unfold get_project_by_id at hget
    rcases hfind : st.projects.find? (fun w => w.id == pid) with _ | q'
    · rw [hfind] at hget
      cases hget
    · rw [hfind] at hget
      cases hget
      cases hdup : projectIdDup st pid p with
      | true =>
        simp [update_project, hfind, hdup] at hupd
      | false =>
        simp [update_project, hfind, hdup] at hupd
        obtain ⟨hr, hst⟩ := hupd
        subst hr
        subst hst
        refine ⟨applyProjectUpdate_id q p now, applyProjectUpdate_created_at q p now,
          fun h => applyProjectUpdate_pid_of_none h,
          fun v h => applyProjectUpdate_pid_of_some h,
          fun h => applyProjectUpdate_descr_of_none h,
          fun v h => applyProjectUpdate_descr_of_some h, ?_,
          applyProjectUpdate_updated_at q p now⟩
        have hres := find?_updateBy _ (fun w => applyProjectUpdate w p now)
          (fun w hw => by simpa [applyProjectUpdate_id] using hw) hfind
        simp [get_project_by_id, hres]

/-- Witness for C5 at a concrete input: patching only the email of user 1
keeps name, age and `created_at`; patching only the description of
project 1 keeps `project_id` and `created_at` and stamps `updated_at`. -/
theorem partial_update_frame_c5_witness :
    ((⟨1, "A", "b@x.com", some 7, 3⟩ : UserRec).id = 1 ∧
      (⟨1, "A", "b@x.com", some 7, 3⟩ : UserRec).created_at = 3 ∧
      ((none : Option String) = none →
        (⟨1, "A", "b@x.com", some 7, 3⟩ : UserRec).name = "A") ∧
      (∀ v, (none : Option String) = some v →
        (⟨1, "A", "b@x.com", some 7, 3⟩ : UserRec).name = v) ∧
      ((some "b@x.com" : Option String) = none →
        (⟨1, "A", "b@x.com", some 7, 3⟩ : UserRec).email = "a@x.com") ∧
      (∀ v, (some "b@x.com" : Option String) = some v →
        (⟨1, "A", "b@x.com", some 7, 3⟩ : UserRec).email = v) ∧
      ((none : Option (Option Nat)) = none →
        (⟨1, "A", "b@x.com", some 7, 3⟩ : UserRec).age = some 7) ∧
      (∀ v, (none : Option (Option Nat)) = some v →
        (⟨1, "A", "b@x.com", some 7, 3⟩ : UserRec).age = v) ∧
      get_user_by_id ⟨[⟨1, "A", "b@x.com", some 7, 3⟩], 2⟩ 1 =
        .ok ⟨1, "A", "b@x.com", some 7, 3⟩) ∧
    ((⟨1, "p1", some "d", 3, 9⟩ : ProjectRec).id = 1 ∧
      (⟨1, "p1", some "d", 3, 9⟩ : ProjectRec).created_at = 3 ∧
      ((none : Option String) = none →
        (⟨1, "p1", some "d", 3, 9⟩ : ProjectRec).project_id = "p1") ∧
      (∀ v, (none : Option String) = some v →
        (⟨1, "p1", some "d", 3, 9⟩ : ProjectRec).project_id = v) ∧
      ((some (some "d") : Option (Option String)) = none →
        (⟨1, "p1", some "d", 3, 9⟩ : ProjectRec).description = none) ∧
      (∀ v, (some (some "d") : Option (Option String)) = some v →
        (⟨1, "p1", some "d", 3, 9⟩ : ProjectRec).description = v) ∧
      get_project_by_id ⟨[⟨1, "p1", some "d", 3, 9⟩], 2⟩ 1 =
        .ok ⟨1, "p1", some "d", 3, 9⟩ ∧
      (⟨1, "p1", some "d", 3, 9⟩ : ProjectRec).updated_at = 9) :=
  ⟨partial_update_frame_c5.1 ⟨[⟨1, "A", "a@x.com", some 7, 3⟩], 2⟩
      ⟨[⟨1, "A", "b@x.com", some 7, 3⟩], 2⟩ 1 ⟨none, some "b@x.com", none⟩
      ⟨1, "A", "a@x.com", some 7, 3⟩ ⟨1, "A", "b@x.com", some 7, 3⟩ rfl rfl,
   partial_update_frame_c5.2 ⟨[⟨1, "p1", none, 3, 3⟩], 2⟩
      ⟨[⟨1, "p1", some "d", 3, 9⟩], 2⟩ 1 ⟨none, some (some "d")⟩ 9
      ⟨1, "p1", none, 3, 3⟩ ⟨1, "p1", some "d", 3, 9⟩ rfl rfl⟩

/-- Apply a create and keep the resulting store (the error branch cannot
occur for the fresh scenario keys below). -/
def seedUser (st : UserStore) (p : UserCreate) (now : Nat) : UserStore :=
  match create_user st p now with
  | .ok (_, st1) => st1
  | .error _ => st

/-- Apply a project create and keep the resulting store. -/
def seedProject (st : ProjectStore) (p : ProjectCreate) (now : Nat) :
    ProjectStore :=
  match create_project st p now with
  | .ok (_, st1) => st1
  | .error _ => st

/-- Five users created in order on an empty store. -/
def fiveUserStore : UserStore :=
  seedUser (seedUser (seedUser (seedUser (seedUser ⟨[], 1⟩
    ⟨"u1", "e1@x.com", none⟩ 1) ⟨"u2", "e2@x.com", none⟩ 2)
    ⟨"u3", "e3@x.com", none⟩ 3) ⟨"u4", "e4@x.com", none⟩ 4)
    ⟨"u5", "e5@x.com", none⟩ 5

/-- Five projects created in order on an empty store. -/
def fiveProjectStore : ProjectStore :=
  seedProject (seedProject (seedProject (seedProject (seedProject ⟨[], 1⟩
    ⟨"p1", none⟩ 1) ⟨"p2", none⟩ 2) ⟨"p3", none⟩ 3) ⟨"p4", none⟩ 4)
    ⟨"p5", none⟩ 5

/-- C8: `list(skip, limit)` pages the store in insertion order — the item
at page position `i` is the stored entity at position `skip + i` — with
the page length `min limit (n - skip)` and a total count equal to the full
store size, independent of the window; in particular over 5 created
entities `list(skip=2, limit=2)` returns exactly the 3rd and 4th created
entities with `total = 5`, for users and for projects alike. -/
theorem pagination_c8 :
    (∀ (st : UserStore) (skip limit : Nat),
        (get_users st skip limit).2 = st.users.length ∧
        (get_users st skip limit).1.length =
          min limit (st.users.length - skip) ∧
        (∀ i : Nat, (get_users st skip limit).1.get? i =
          if i < limit then st.users.get? (skip + i) else none)) ∧
    (∀ (st : ProjectStore) (skip limit : Nat),
        (get_projects st skip limit).2 = st.projects.length ∧
        (get_projects st skip limit).1.length =
          min limit (st.projects.length - skip) ∧
        (∀ i : Nat, (get_projects st skip limit).1.get? i =
          if i < limit then st.projects.get? (skip + i) else none)) ∧
    get_users fiveUserStore 2 2 =
      ([⟨3, "u3", "e3@x.com", none, 3⟩, ⟨4, "u4", "e4@x.com", none, 4⟩], 5) ∧
    get_projects fiveProjectStore 2 2 =
      ([⟨3, "p3", none, 3, 3⟩, ⟨4, "p4", none, 4, 4⟩], 5) := by
  refine ⟨?_, ?_, rfl, rfl⟩
  · intro st skip limit
    refine ⟨rfl, ?_, ?_⟩
    · simp [get_users, List.length_take, List.length_drop]
    · intro i
      by_cases hi : i < limit
      · rw [if_pos hi]
        simp [get_users, List.get?_eq_getElem?, List.getElem?_take_of_lt hi,
          List.getElem?_drop]
      · rw [if_neg hi]
        apply List.get?_eq_none.mpr
        calc ((st.users.drop skip).take limit).length ≤ limit :=
              List.length_take_le limit (st.users.drop skip)
          _ ≤ i := Nat.le_of_not_lt hi
  · intro st skip limit
    refine ⟨rfl, ?_, ?_⟩
    · simp [get_projects, List.length_take, List.length_drop]
    · intro i
      by_cases hi : i < limit
      · rw [if_pos hi]
        simp [get_projects, List.get?_eq_getElem?, List.getElem?_take_of_lt hi,
          List.getElem?_drop]
      · rw [if_neg hi]
        apply List.get?_eq_none.mpr
        calc ((st.projects.drop skip).take limit).length ≤ limit :=
              List.length_take_le limit (st.projects.drop skip)
          _ ≤ i := Nat.le_of_not_lt hi

/-- C2: `add(user_key, project_key)` fails with the not-found failure when
either endpoint is missing; when both exist it succeeds whether or not the
pair is already linked, the resulting association table holds exactly one
copy of the pair, and running the same add again returns the same store
unchanged (idempotence, no duplicate link). -/
theorem add_user_to_project_idempotent_c2 :
    (∀ (st : RelState) (uid : String) (pid : Nat),
        (findRelUser st uid = none ∨ findRelProject st pid = none) →
        add_user_to_project st uid pid = .error endpointNotFoundErr) ∧
    (∀ (st : RelState) (uid : String) (pid : Nat) (u : RelUser)
        (p : RelProject),
        findRelUser st uid = some u → findRelProject st pid = some p →
        st.assoc.Nodup →
        ∃ st1, add_user_to_project st uid pid = .ok st1 ∧
          pairCount st1.assoc (u.id, p.id) = 1 ∧
          add_user_to_project st1 uid pid = .ok st1) := by
  constructor
  · intro st uid pid h
    rcases h with h | h
    · rcases hp : findRelProject st pid with _ | p <;>
        simp [add_user_to_project, h, hp]
    · rcases hu : findRelUser st uid with _ | u <;>
        simp [add_user_to_project, h, hu]
  · intro st uid pid u p hu hp hnd
    by_cases hmem : (u.id, p.id) ∈ st.assoc
    · exact ⟨st, by simp [add_user_to_project, hu, hp, hmem],
        pairCount_eq_one_of_nodup_mem hnd hmem,
        by simp [add_user_to_project, hu, hp, hmem]⟩
    · refine ⟨{ st with assoc := st.assoc ++ [(u.id, p.id)] },
        by simp [add_user_to_project, hu, hp, hmem], ?_, ?_⟩
      · rw [pairCount_append, pairCount_eq_zero_of_not_mem hmem,
          pairCount_singleton]
      · have hu1 : findRelUser { st with assoc := st.assoc ++ [(u.id, p.id)] }
            uid = some u := hu
        have hp1 : findRelProject
            { st with assoc := st.assoc ++ [(u.id, p.id)] } pid = some p := hp
        simp [add_user_to_project, hu1, hp1]

/-- Witness for C2 at a concrete input: adding user `alice` to project 1
twice leaves exactly one association row. -/
theorem add_user_to_project_idempotent_c2_witness :
    ∃ st1, add_user_to_project ⟨[⟨1, "alice"⟩], [⟨1, "p1"⟩], []⟩ "alice" 1 =
        .ok st1 ∧ pairCount st1.assoc (1, 1) = 1 ∧
        add_user_to_project st1 "alice" 1 = .ok st1 :=
  add_user_to_project_idempotent_c2.2 ⟨[⟨1, "alice"⟩], [⟨1, "p1"⟩], []⟩
    "alice" 1 ⟨1, "alice"⟩ ⟨1, "p1"⟩ rfl rfl (by decide)

/-- C3: `remove(user_key, project_key)` fails with the not-found failure
when either endpoint is missing; fails with the distinct
"User is not in project" failure when both exist but the pair is not
linked; otherwise it removes the link, after which the user's project list
no longer contains that project and a second remove of the same pair
fails — and at the HTTP boundary the router maps both the not-found and
the not-in-project messages to 404. -/
theorem remove_user_from_project_semantics_c3 :
    (∀ (st : RelState) (uid : String) (pid : Nat),
        (findRelUser st uid = none ∨ findRelProject st pid = none) →
        remove_user_from_project st uid pid = .error endpointNotFoundErr) ∧
    (∀ (st : RelState) (uid : String) (pid : Nat) (u : RelUser)
        (p : RelProject),
        findRelUser st uid = some u → findRelProject st pid = some p →
        (u.id, p.id) ∉ st.assoc →
        remove_user_from_project st uid pid = .error notInProjectErr) ∧
    (∀ (st : RelState) (uid : String) (pid : Nat) (u : RelUser)
        (p : RelProject),
        findRelUser st uid = some u → findRelProject st pid = some p →
        st.assoc.Nodup → (u.id, p.id) ∈ st.assoc →
        ∃ st1, remove_user_from_project st uid pid = .ok st1 ∧
          (u.id, p.id) ∉ st1.assoc ∧
          (∀ l, list_projects_for_user st1 uid = .ok l →
            ∀ q, q ∈ l → q.id ≠ p.id) ∧
          remove_user_from_project st1 uid pid = .error notInProjectErr) ∧
    removeUserFromProjectStatus notInProjectErr = 404 ∧
    removeUserFromProjectStatus endpointNotFoundErr = 404 := by
  refine ⟨?_, ?_, ?_, rfl, rfl⟩
  · intro st uid pid h
    rcases h with h | h
    · rcases hp : findRelProject st pid with _ | p <;>
        simp [remove_user_from_project, h, hp]
    · rcases hu : findRelUser st uid with _ | u <;>
        simp [remove_user_from_project, h, hu]
  · intro st uid pid u p hu hp hmem
    simp [remove_user_from_project, hu, hp, hmem]
  · intro st uid pid u p hu hp hnd hmem
    refine ⟨{ st with
        assoc := removeBy (fun q => decide (q = (u.id, p.id))) st.assoc },
      by simp [remove_user_from_project, hu, hp, hmem], ?_, ?_, ?_⟩
    · exact not_mem_removeBy_decide_of_nodup hnd
    · intro l hl q hq hqid
      have hu1 : findRelUser
          { st with
            assoc := removeBy (fun r => decide (r = (u.id, p.id))) st.assoc }
          uid = some u := hu
      rw [list_projects_for_user, hu1] at hl
      cases hl
      have hq' := List.mem_filter.mp hq
      have hin : (u.id, q.id) ∈
          removeBy (fun r => decide (r = (u.id, p.id))) st.assoc := by
        simpa using hq'.2
      rw [hqid] at hin
      exact not_mem_removeBy_decide_of_nodup hnd hin
    · have hu1 : findRelUser
          { st with
            assoc := removeBy (fun r => decide (r = (u.id, p.id))) st.assoc }
          uid = some u := hu
      have hp1 : findRelProject
          { st with
            assoc := removeBy (fun r => decide (r = (u.id, p.id))) st.assoc }
          pid = some p := hp
      simp [remove_user_from_project, hu1, hp1,
        not_mem_removeBy_decide_of_nodup hnd]

/-- Witness for C3 at a concrete input: removing `alice` from project 1
succeeds once, empties her project list, and fails the second time. -/
theorem remove_user_from_project_semantics_c3_witness :
    ∃ st1, remove_user_from_project
        ⟨[⟨1, "alice"⟩], [⟨1, "p1"⟩], [(1, 1)]⟩ "alice" 1 = .ok st1 ∧
      ((1 : Nat), (1 : Nat)) ∉ st1.assoc ∧
      (∀ l, list_projects_for_user st1 "alice" = .ok l →
        ∀ q, q ∈ l → q.id ≠ 1) ∧
      remove_user_from_project st1 "alice" 1 = .error notInProjectErr :=
  remove_user_from_project_semantics_c3.2.2.1
    ⟨[⟨1, "alice"⟩], [⟨1, "p1"⟩], [(1, 1)]⟩ "alice" 1 ⟨1, "alice"⟩ ⟨1, "p1"⟩
    rfl rfl (by decide) (by decide)

/-- C9 counterexample: deleting a user does NOT cascade to the association
table.  In a referentially intact store holding user 1, project 1 and the
link (1, 1), `delete_user` succeeds but leaves the association row behind,
so the resulting store violates the no-dangling-reference invariant: the
association table's foreign keys (`projects/models.py` lines 13-19) carry
no `ON DELETE` action and the `UserORM` used by `delete_user` maps no
relationship through which the ORM could clean the rows. -/
theorem user_delete_leaves_dangling_c9_cex :
    delete_user_rel ⟨[⟨1, "alice"⟩], [⟨1, "p1"⟩], [(1, 1)]⟩ 1 =
      .ok ⟨[], [⟨1, "p1"⟩], [(1, 1)]⟩ ∧
    noDangling ⟨[⟨1, "alice"⟩], [⟨1, "p1"⟩], [(1, 1)]⟩ ∧
    ¬ noDangling ⟨[], [⟨1, "p1"⟩], [(1, 1)]⟩ :=
  ⟨rfl, by decide, by decide⟩

/-- C9 amended: association add/remove, entity insertion and project
deletion all preserve referential integrity of the association table —
project deletion removes every association row referencing the deleted
project — but user deletion removes only the user row and leaves the
association rows untouched, so it does not preserve the invariant. -/
theorem referential_integrity_amended_c9 :
    (∀ (st : RelState) (uid : String) (pid : Nat) (st1 : RelState),
        add_user_to_project st uid pid = .ok st1 →
        noDangling st → noDangling st1) ∧
    (∀ (st : RelState) (uid : String) (pid : Nat) (st1 : RelState),
        remove_user_from_project st uid pid = .ok st1 →
        noDangling st → noDangling st1) ∧
    (∀ (st : RelState) (id : Nat) (st1 : RelState),
        delete_project_rel st id = .ok st1 →
        noDangling st → noDangling st1) ∧
    (∀ (st : RelState) (u : RelUser),
        noDangling st → noDangling (insert_rel_user st u)) ∧
    (∀ (st : RelState) (p : RelProject),
        noDangling st → noDangling (insert_rel_project st p)) ∧
    (∀ (st : RelState) (id : Nat) (st1 : RelState),
        delete_user_rel st id = .ok st1 →
        st1.assoc = st.assoc ∧ st1.projects = st.projects ∧
        st1.users = removeBy (fun u => u.id == id) st.users) := by
  refine ⟨?_, ?_, ?_, ?_, ?_, ?_⟩
  · intro st uid pid st1 h hnd
    rcases hu : findRelUser st uid with _ | u <;>
      rcases hp : findRelProject st pid with _ | p <;>
      simp [add_user_to_project, hu, hp] at h
    by_cases hmem : (u.id, p.id) ∈ st.assoc
    · rw [if_pos hmem] at h
      cases h
      exact hnd
    · rw [if_neg hmem] at h
      cases h
      intro q hq
      rcases List.mem_append.mp hq with hq | hq
      · exact hnd q hq
      · have hq' : q = (u.id, p.id) := by simpa using hq
        subst hq'
        exact ⟨⟨u, List.mem_of_find?_eq_some hu, rfl⟩,
               ⟨p, List.mem_of_find?_eq_some hp, rfl⟩⟩
  · intro st uid pid st1 h hnd
    rcases hu : findRelUser st uid with _ | u <;>
      rcases hp : findRelProject st pid with _ | p <;>
      simp [remove_user_from_project, hu, hp] at h
    by_cases hmem : (u.id, p.id) ∈ st.assoc
    · rw [if_pos hmem] at h
      cases h
      intro q hq
      exact hnd q (mem_of_mem_removeBy hq)
    · rw [if_neg hmem] at h
      cases h
  · intro st id st1 h hnd
    rcases hp : st.projects.find? (fun p => p.id == id) with _ | p <;>
      simp [delete_project_rel, hp] at h
    cases h
    intro q hq
    have hq' := List.mem_filter.mp hq
    have hqid : q.2 ≠ id := by simpa using hq'.2
    rcases hnd q hq'.1 with ⟨⟨u, hu, huid⟩, ⟨pr, hpr, hprid⟩⟩
    refine ⟨⟨u, hu, huid⟩, ⟨pr, ?_, hprid⟩⟩
    exact mem_removeBy_of_pred_false hpr (by simp [hprid, hqid])
  · intro st u hnd q hq
    rcases hnd q hq with ⟨⟨w, hw, hwid⟩, ⟨pr, hpr, hprid⟩⟩
    exact ⟨⟨w, List.mem_append_left _ hw, hwid⟩, ⟨pr, hpr, hprid⟩⟩
  · intro st p hnd q hq
    rcases hnd q hq with ⟨⟨w, hw, hwid⟩, ⟨pr, hpr, hprid⟩⟩
    exact ⟨⟨w, hw, hwid⟩, ⟨pr, List.mem_append_left _ hpr, hprid⟩⟩
  · intro st id st1 h
    rcases hu : st.users.find? (fun u => u.id == id) with _ | u <;>
      simp [delete_user_rel, hu] at h
    cases h
    exact ⟨rfl, rfl, rfl⟩

/-- Witness for C9 (amended) at a concrete input: adding the link (1, 1)
preserves integrity, and deleting user 1 keeps the association table
as it was. -/
theorem referential_integrity_amended_c9_witness :
    noDangling ⟨[⟨1, "alice"⟩], [⟨1, "p1"⟩], [(1, 1)]⟩ ∧
    ((⟨[], [⟨1, "p1"⟩], [(1, 1)]⟩ : RelState).assoc =
        (⟨[⟨1, "alice"⟩], [⟨1, "p1"⟩], [(1, 1)]⟩ : RelState).assoc ∧
      (⟨[], [⟨1, "p1"⟩], [(1, 1)]⟩ : RelState).projects =
        (⟨[⟨1, "alice"⟩], [⟨1, "p1"⟩], [(1, 1)]⟩ : RelState).projects ∧
      (⟨[], [⟨1, "p1"⟩], [(1, 1)]⟩ : RelState).users =
        removeBy (fun u => u.id == 1)
          (⟨[⟨1, "alice"⟩], [⟨1, "p1"⟩], [(1, 1)]⟩ : RelState).users) :=
  ⟨referential_integrity_amended_c9.1 ⟨[⟨1, "alice"⟩], [⟨1, "p1"⟩], []⟩
      "alice" 1 ⟨[⟨1, "alice"⟩], [⟨1, "p1"⟩], [(1, 1)]⟩ rfl (by decide),
   referential_integrity_amended_c9.2.2.2.2.2
      ⟨[⟨1, "alice"⟩], [⟨1, "p1"⟩], [(1, 1)]⟩ 1
      ⟨[], [⟨1, "p1"⟩], [(1, 1)]⟩ rfl⟩

/-- C10: every NotFound-style business failure raised by the managers —
entity not found on get, update or delete, a missing endpoint on
association add or remove, and the user-not-in-project removal error —
carries an empty `details` list.  For `get`/`delete`/`add`/`remove` every
raised failure is of that kind, so the statement is unconditional; for the
updates it is restricted to failures the boundary classifies as 404
(ruling out the Conflict failure, whose details are non-empty). -/
theorem not_found_details_empty_c10 :
    (∀ (st : UserStore) (k : Nat) (e : BusinessException),
        get_user_by_id st k = .error e → e.details = []) ∧
    (∀ (st : UserStore) (k : Nat) (e : BusinessException),
        delete_user st k = .error e → e.details = []) ∧
    (∀ (st : ProjectStore) (k : Nat) (e : BusinessException),
        get_project_by_id st k = .error e → e.details = []) ∧
    (∀ (st : ProjectStore) (k : Nat) (e : BusinessException),
        delete_project st k = .error e → e.details = []) ∧
    (∀ (st : UserStore) (k : Nat) (p : UserUpdate) (e : BusinessException),
        update_user st k p = .error e →
        removeUserFromProjectStatus e = 404 → e.details = []) ∧
    (∀ (st : ProjectStore) (k : Nat) (p : ProjectUpdate) (now : Nat)
        (e : BusinessException),
        update_project st k p now = .error e →
        removeUserFromProjectStatus e = 404 → e.details = []) ∧
    (∀ (st : RelState) (uid : String) (pid : Nat) (e : BusinessException),
        add_user_to_project st uid pid = .error e → e.details = []) ∧
    (∀ (st : RelState) (uid : String) (pid : Nat) (e : BusinessException),
        remove_user_from_project st uid pid = .error e → e.details = []) := by
  refine ⟨?_, ?_, ?_, ?_, ?_, ?_, ?_, ?_⟩
  · intro st k e h
    rcases hfind : st.users.find? (fun u => u.id == k) with _ | u <;>
      simp [get_user_by_id, hfind] at h
    subst h
    rfl
  · intro st k e h
    rcases hfind : st.users.find? (fun u => u.id == k) with _ | u <;>
      simp [delete_user, hfind] at h
    subst h
    rfl
  · intro st k e h
    rcases hfind : st.projects.find? (fun p => p.id == k) with _ | p <;>
      simp [get_project_by_id, hfind] at h
    subst h
    rfl
  · intro st k e h
    rcases hfind : st.projects.find? (fun p => p.id == k) with _ | p <;>
      simp [delete_project, hfind] at h
    subst h
    rfl
  · intro st k p e h h404
    rcases hfind : st.users.find? (fun u => u.id == k) with _ | u
    · simp [update_user, hfind] at h
      subst h
      rfl
    · cases hdup : userEmailDup st k p
      · simp [update_user, hfind, hdup] at h
      · simp [update_user, hfind, hdup] at h
        subst h
        exact absurd h404 (by decide)
  · intro st k p now e h h404
    rcases hfind : st.projects.find? (fun q => q.id == k) with _ | q
    · simp [update_project, hfind] at h
      subst h
      rfl
    · cases hdup : projectIdDup st k p
      · simp [update_project, hfind, hdup] at h
      · simp [update_project, hfind, hdup] at h
        subst h
        exact absurd h404 (by decide)
  · intro st uid pid e h
    rcases hu : findRelUser st uid with _ | u <;>
      rcases hp : findRelProject st pid with _ | p <;>
      simp [add_user_to_project, hu, hp] at h
    · subst h
      rfl
    · subst h
      rfl
    · subst h
      rfl
    · by_cases hmem : (u.id, p.id) ∈ st.assoc
      · rw [if_pos hmem] at h
        cases h
      · rw [if_neg hmem] at h
        cases h
  · intro st uid pid e h
    rcases hu : findRelUser st uid with _ | u <;>
      rcases hp : findRelProject st pid with _ | p <;>
      simp [remove_user_from_project, hu, hp] at h
    · subst h
      rfl
    · subst h
      rfl
    · subst h
      rfl
    · by_cases hmem : (u.id, p.id) ∈ st.assoc
      · rw [if_pos hmem] at h
        cases h
      · rw [if_neg hmem] at h
        cases h
        rfl

/-- Witness for C10 at concrete inputs: the not-found failure of a get on
an empty user store and the not-in-project failure of a remove both carry
no details. -/
theorem not_found_details_empty_c10_witness :
    (userNotFoundErr 7).details = [] ∧ notInProjectErr.details = [] :=
  ⟨not_found_details_empty_c10.1 ⟨[], 1⟩ 7 (userNotFoundErr 7) rfl,
   not_found_details_empty_c10.2.2.2.2.2.2.2
      ⟨[⟨1, "alice"⟩], [⟨1, "p1"⟩], []⟩ "alice" 1 notInProjectErr rfl⟩
